import Mathlib

/-!
Shallow embedding of the course-catalog Flask application
(`app.py`, `app2.py`, `app3.py`, `app_jaeger.py`, `jaeger_trail.py`).

The persisted storage (`course_catalog.json`) is modelled by `FileState`:
the file may be absent, hold a parsed JSON value, or be present but
malformed.  Python exceptions that the handlers can raise are modelled by
`PyError`; every handler returns `Except PyError` so that an unhandled
exception propagates exactly as in the source.

All five variants share `load_courses`, `save_courses`, `course_catalog`,
`course_details`; `app.py`, `app_jaeger.py` and `jaeger_trail.py` share one
`add_course` (the strict four-field validation), while `app2.py` and
`app3.py` share the lenient one (only name and instructor are checked).
-/

set_option autoImplicit false

namespace CourseApp

/-- JSON values as produced by Python's `json` module for this app:
`null`, strings, arrays and objects (dicts, modelled as ordered key/value
lists; Python dicts have no duplicate keys). -/
inductive Json where
  | null
  | str (s : String)
  | arr (elems : List Json)
  | obj (kvs : List (String × Json))
deriving Repr

/-- State of the persisted file `course_catalog.json`. -/
inductive FileState where
  | missing
  | holds (j : Json)
  | corrupt
deriving Repr

/-- Python exceptions reachable from the handlers. -/
inductive PyError where
  | jsonDecodeError
  | keyError (k : String)
  | typeError
  | attributeError
deriving Repr, DecidableEq

/-- `load_courses` (identical in all five files): returns `[]` when the
file does not exist, the parsed JSON when it does, and lets
`json.JSONDecodeError` propagate when the contents are not valid JSON. -/
def load_courses : FileState → Except PyError Json
  | .missing => .ok (.arr [])
  | .holds j => .ok j
  | .corrupt => .error .jsonDecodeError

/-- `save_courses(data)` (identical in all five files): loads the existing
courses, appends `data`, rewrites the whole file.  `.append` on a loaded
value that is not a list raises `AttributeError`. -/
def save_courses (data : Json) (fs : FileState) : Except PyError FileState :=
  match load_courses fs with
  | .error e => .error e
  | .ok (.arr courses) => .ok (.holds (.arr (courses ++ [data])))
  | .ok _ => .error .attributeError

/-- Python truthiness of a JSON value (`if not course:`). -/
def pyTruthy : Json → Bool
  | .null => false
  | .str s => !s.isEmpty
  | .arr xs => !xs.isEmpty
  | .obj kvs => !kvs.isEmpty

/-- Python iteration over a JSON value (`for course in courses`): lists
yield their elements, dicts their keys, strings their characters, and
`None` raises `TypeError`. -/
def pyIter : Json → Except PyError (List Json)
  | .arr xs => .ok xs
  | .obj kvs => .ok (kvs.map fun kv => .str kv.fst)
  | .str s => .ok (s.data.map fun c => .str (String.mk [c]))
  | .null => .error .typeError

/-- Python `==` between a JSON value and a string: `True` exactly for an
equal string; comparing any non-string value with a string is `False`
(no exception). -/
def pyEqStr : Json → String → Bool
  | .str s, t => s == t
  | _, _ => false

/-- Python subscript `j[k]` with a string key: dict lookup (raising
`KeyError` when the key is absent), `TypeError` on any non-dict. -/
def getItem (j : Json) (k : String) : Except PyError Json :=
  match j with
  | .obj kvs =>
    match kvs.lookup k with
    | some v => .ok v
    | none => .error (.keyError k)
  | _ => .error .typeError

/-- The generator `next((course for course in courses if course['code'] == code), None)`:
scans left to right, evaluating `course['code']` (which can raise) and
comparing with `code` (comparison of a non-string with a string is `False`). -/
def findCourse (code : String) : List Json → Except PyError (Option Json)
  | [] => .ok none
  | c :: rest =>
    match getItem c "code" with
    | .error e => .error e
    | .ok v =>
      if pyEqStr v code then .ok (some c) else findCourse code rest

/-- What a route handler hands back to Flask: a rendered template with its
data, or a redirect to an endpoint carrying flash messages
`(message, category)`. -/
inductive RouteResult where
  | render (template : String) (data : Json)
  | redirect (endpoint : String) (flashes : List (String × String))
deriving Repr

/-- `GET /` — renders the landing page, touches no data. -/
def index (fs : FileState) : Except PyError (RouteResult × FileState) :=
  .ok (.render "index.html" Json.null, fs)

/-- `GET /catalog` — loads the courses and renders them. -/
def course_catalog (fs : FileState) : Except PyError (RouteResult × FileState) :=
  match load_courses fs with
  | .error e => .error e
  | .ok courses => .ok (.render "course_catalog.html" courses, fs)

/-- The flash message on a failed course lookup. -/
def noCourseMsg (code : String) : String :=
  "No course found with code " ++ "\x27" ++ code ++ "\x27" ++ "."

/-- `GET /course/<code>` — loads the courses, takes the first whose
`'code'` entry equals `code`, renders it; flashes an error and redirects
to the catalog when none matches (`if not course:` is a truthiness test). -/
def course_details (code : String) (fs : FileState) :
    Except PyError (RouteResult × FileState) :=
  match load_courses fs with
  | .error e => .error e
  | .ok j =>
    match pyIter j with
    | .error e => .error e
    | .ok courses =>
      match findCourse code courses with
      | .error e => .error e
      | .ok found =>
        match found with
        | some course =>
          if pyTruthy course then
            .ok (.render "course_details.html" course, fs)
          else
            .ok (.redirect "course_catalog" [(noCourseMsg code, "error")], fs)
        | none =>
          .ok (.redirect "course_catalog" [(noCourseMsg code, "error")], fs)

/-- `request.form.get(k)`: `None` when the field is absent. -/
def formGet (form : List (String × String)) (k : String) : Option String :=
  form.lookup k

/-- Python truthiness test `not field` on a form value: `True` exactly for
an absent field (`None`) and for the empty string. -/
def isMissing : Option String → Bool
  | none => true
  | some s => s.isEmpty

/-- The `missing_fields` list built by the strict `add_course`
(`app.py`, `app_jaeger.py`, `jaeger_trail.py`), in source order. -/
def missing_fields (course_name instructor semester course_code : Option String) :
    List String :=
  (if isMissing course_name then ["Course Name"] else []) ++
  (if isMissing instructor then ["Instructor"] else []) ++
  (if isMissing semester then ["Semester"] else []) ++
  (if isMissing course_code then ["Course Code"] else [])

/-- `missing_fields` applied to the four form fields read by `add_course`. -/
def formMissing (form : List (String × String)) : List String :=
  missing_fields (formGet form "name") (formGet form "instructor")
    (formGet form "semester") (formGet form "code")

/-- A form passes the strict validation iff `missing_fields` is empty. -/
def validForm (form : List (String × String)) : Bool :=
  (formMissing form).isEmpty

/-- `json.dump` serialises Python `None` as JSON `null`. -/
def optJson : Option String → Json
  | none => Json.null
  | some s => .str s

/-- The dict passed to `save_courses` by every `add_course` variant. -/
def courseJson (form : List (String × String)) : Json :=
  .obj [("name", optJson (formGet form "name")),
        ("instructor", optJson (formGet form "instructor")),
        ("semester", optJson (formGet form "semester")),
        ("code", optJson (formGet form "code"))]

/-- The validation-failure flash of the strict `add_course`. -/
def reqFieldsMsg (missing : List String) : String :=
  "Error: The following fields are required: " ++
    String.intercalate ", " missing ++ "."

/-- The success flash of every `add_course` variant. -/
def successMsg (name : Option String) : String :=
  "Course " ++ "\x27" ++ name.getD "" ++ "\x27" ++ " added successfully!"

/-- `POST /add_course` of `app.py`, `app_jaeger.py`, `jaeger_trail.py`:
collects the names of the empty/absent fields among name, instructor,
semester, code; on any missing field flashes them and redirects back to
the form without saving; otherwise saves the new course dict and
redirects to the catalog. -/
def add_course (form : List (String × String)) (fs : FileState) :
    Except PyError (RouteResult × FileState) :=
  let missing := formMissing form
  if missing.isEmpty then
    match save_courses (courseJson form) fs with
    | .error e => .error e
    | .ok fs2 =>
      .ok (.redirect "course_catalog"
             [(successMsg (formGet form "name"), "success")], fs2)
  else
    .ok (.redirect "add_course" [(reqFieldsMsg missing, "error")], fs)

/-- `POST /add_course` of `app2.py` and `app3.py`: only name and
instructor are checked (`if not course_name or not instructor:`); the
failure flash is a fixed sentence; semester and code are stored as given,
possibly `None`. -/
def add_course_lenient (form : List (String × String)) (fs : FileState) :
    Except PyError (RouteResult × FileState) :=
  if isMissing (formGet form "name") || isMissing (formGet form "instructor") then
    .ok (.redirect "add_course"
           [("Error: Course name and instructor are required.", "error")], fs)
  else
    match save_courses (courseJson form) fs with
    | .error e => .error e
    | .ok fs2 =>
      .ok (.redirect "course_catalog"
             [(successMsg (formGet form "name"), "success")], fs2)

/-- A JSON value that can be looked up by `course_details` without an
exception: a dict containing the key `'code'`. -/
def hasCodeKey : Json → Bool
  | .obj kvs => (kvs.lookup "code").isSome
  | _ => false

/-- The predicate of the course-lookup generator, exception-free form. -/
def matchesCode (code : String) (c : Json) : Bool :=
  match getItem c "code" with
  | .ok v => pyEqStr v code
  | .error _ => false

/-- A sequence of strict `add_course` submissions, threading the file
state; stops at the first propagated exception. -/
def runAdds : List (List (String × String)) → FileState → Except PyError FileState
  | [], fs => .ok fs
  | f :: rest, fs =>
    match add_course f fs with
    | .error e => .error e
    | .ok (_, fs2) => runAdds rest fs2

/-! ## Helper lemmas -/

/-- The strict validation succeeds exactly when every one of the four
fields is non-missing. -/
theorem missing_fields_nil_iff (n i s c : Option String) :
    missing_fields n i s c = [] ↔
      isMissing n = false ∧ isMissing i = false ∧
      isMissing s = false ∧ isMissing c = false := by
  cases hn : isMissing n <;> cases hi : isMissing i <;>
    cases hs : isMissing s <;> cases hc : isMissing c <;>
      simp [missing_fields, hn, hi, hs, hc]

/-- `save_courses` on a state whose load yields a JSON array appends the
new dict at the end of that array. -/
theorem save_courses_arr (d : Json) (fs : FileState) (xs : List Json)
    (h : load_courses fs = .ok (.arr xs)) :
    save_courses d fs = .ok (.holds (.arr (xs ++ [d]))) := by
  unfold save_courses
  rw [h]

/-- Strict `add_course` on an invalid form: flashes exactly the missing
fields and leaves the state untouched. -/
theorem add_course_invalid (form : List (String × String)) (fs : FileState)
    (h : validForm form = false) :
    add_course form fs =
      .ok (.redirect "add_course" [(reqFieldsMsg (formMissing form), "error")], fs) := by
  unfold add_course
  simp only [validForm] at h
  simp [h]

/-- Strict `add_course` on a valid form over an array-shaped store:
appends the course dict and redirects to the catalog. -/
theorem add_course_valid (form : List (String × String)) (fs : FileState) (xs : List Json)
    (hv : validForm form = true) (hl : load_courses fs = .ok (.arr xs)) :
    add_course form fs =
      .ok (.redirect "course_catalog" [(successMsg (formGet form "name"), "success")],
           .holds (.arr (xs ++ [courseJson form]))) := by
  unfold add_course
  simp only [validForm] at hv
  rw [save_courses_arr (courseJson form) fs xs hl]
  simp [hv]

/-- A value satisfying `hasCodeKey` is a non-empty dict on which
`getItem · "code"` succeeds. -/
theorem hasCodeKey_spec (c : Json) (h : hasCodeKey c = true) :
    ∃ v, getItem c "code" = .ok v ∧ pyTruthy c = true := by
  cases c with
  | null => simp [hasCodeKey] at h
  | str s => simp [hasCodeKey] at h
  | arr es => simp [hasCodeKey] at h
  | obj kvs =>
    cases hk : kvs.lookup "code" with
    | none => simp [hasCodeKey, hk] at h
    | some v =>
      refine ⟨v, by simp [getItem, hk], ?_⟩
      cases kvs with
      | nil => simp [List.lookup] at hk
      | cons kv rest => simp [pyTruthy]

/-- On a list of values that all carry a `'code'` key, the lookup
generator never raises and agrees with `List.find?` over `matchesCode`. -/
theorem findCourse_ok (code : String) (xs : List Json)
    (h : ∀ c ∈ xs, hasCodeKey c = true) :
    findCourse code xs = .ok (xs.find? (matchesCode code)) := by
  induction xs with
  | nil => rfl
  | cons c rest ih =>
    obtain ⟨v, hv, -⟩ := hasCodeKey_spec c (h c (List.mem_cons_self c rest))
    have hmc : matchesCode code c = pyEqStr v code := by
      simp [matchesCode, hv]
    unfold findCourse
    rw [hv]
    cases hp : pyEqStr v code with
    | true => simp [List.find?, hmc, hp]
    | false =>
      simp only [List.find?, hmc, hp, cond_false, if_neg Bool.false_ne_true]
      exact ih fun g hg => h g (List.mem_cons_of_mem c hg)

/-- `course_details` on a well-formed array-shaped store renders the first
match and redirects with a not-found flash otherwise. -/
theorem course_details_wf (code : String) (xs : List Json)
    (h : ∀ c ∈ xs, hasCodeKey c = true) :
    course_details code (.holds (.arr xs)) =
      match xs.find? (matchesCode code) with
      | some c => .ok (.render "course_details.html" c, .holds (.arr xs))
      | none => .ok (.redirect "course_catalog" [(noCourseMsg code, "error")],
                     .holds (.arr xs)) := by
  unfold course_details
  simp only [load_courses, pyIter]
  rw [findCourse_ok code xs h]
  cases hf : xs.find? (matchesCode code) with
  | none => simp
  | some c =>
    obtain ⟨v, hv, ht⟩ := hasCodeKey_spec c (h c (List.mem_of_find?_eq_some hf))
    simp [ht]

/-- A run of valid strict submissions over an array-shaped store appends
the corresponding course dicts in call order. -/
theorem runAdds_arr (forms : List (List (String × String))) (xs : List Json)
    (h : ∀ f ∈ forms, validForm f = true) :
    runAdds forms (.holds (.arr xs)) =
      .ok (.holds (.arr (xs ++ forms.map courseJson))) := by
  induction forms generalizing xs with
  | nil => simp [runAdds]
  | cons f rest ih =>
    unfold runAdds
    rw [add_course_valid f (.holds (.arr xs)) xs (h f (List.mem_cons_self f rest)) rfl]
    show runAdds rest (FileState.holds (Json.arr (xs ++ [courseJson f]))) =
      Except.ok (FileState.holds (Json.arr (xs ++ List.map courseJson (f :: rest))))
    rw [ih (xs ++ [courseJson f]) fun g hg => h g (List.mem_cons_of_mem f hg)]
    simp

/-! ## Claims -/

/-- C4: `load_courses` returns the empty list (not an error) when the
persisted file is absent, and when the file is present but not valid JSON
the parse failure propagates unhandled to the caller — in particular
through the catalog and detail routes. -/
theorem c4_load_empty_or_propagate :
    load_courses FileState.missing = .ok (.arr []) ∧
    load_courses FileState.corrupt = .error .jsonDecodeError ∧
    (∀ code, course_details code FileState.corrupt = .error .jsonDecodeError) ∧
    course_catalog FileState.corrupt = .error .jsonDecodeError :=
  ⟨rfl, rfl, fun _ => rfl, rfl⟩

/-- C5: `save_courses` reads the current collection, appends the new
course as the last element and rewrites the whole collection; from the
absent-file state the result is the one-element collection. -/
theorem c5_append_last (d : Json) (xs : List Json) :
    save_courses d (.holds (.arr xs)) = .ok (.holds (.arr (xs ++ [d]))) ∧
    save_courses d FileState.missing = .ok (.holds (.arr [d])) :=
  ⟨rfl, rfl⟩

/-- C9: the strict validation is a truthiness test: an absent field and a
present-but-empty field are treated identically (both missing), while any
non-empty string — whitespace included — passes.  The third conjunct shows
a form with `name` present but empty behaves exactly like one with `name`
absent; the fourth shows a whitespace-only submission is accepted and
stored. -/
theorem c9_truthiness_validation :
    isMissing none = true ∧
    (∀ s : String, isMissing (some s) = s.isEmpty) ∧
    (∀ fs, add_course [("name", ""), ("instructor", "I"), ("semester", "S"), ("code", "C")] fs =
           add_course [("instructor", "I"), ("semester", "S"), ("code", "C")] fs) ∧
    add_course [("name", " "), ("instructor", " "), ("semester", " "), ("code", " ")]
        FileState.missing =
      .ok (.redirect "course_catalog" [(successMsg (some " "), "success")],
           .holds (.arr [courseJson
             [("name", " "), ("instructor", " "), ("semester", " "), ("code", " ")]])) :=
  ⟨rfl, fun _ => rfl, fun _ => rfl, rfl⟩

/-- C1 counterexample: the claim says every variant validates that `code`
is non-empty and that a failure names exactly the missing fields.  The
lenient variant (`app2.py`, `app3.py`) accepts a submission whose `code`
and `semester` are absent, storing them as `null`; and when `name` alone
is missing its failure flash is a fixed sentence naming name and
instructor, not the list of missing fields. -/
theorem c1_counterexample :
    add_course_lenient [("name", "Algorithms"), ("instructor", "Dr. A")]
        FileState.missing =
      .ok (.redirect "course_catalog" [(successMsg (some "Algorithms"), "success")],
           .holds (.arr [Json.obj [("name", .str "Algorithms"),
                                   ("instructor", .str "Dr. A"),
                                   ("semester", Json.null),
                                   ("code", Json.null)]])) ∧
    add_course_lenient [("instructor", "Dr. A"), ("semester", "Fall"), ("code", "CS301")]
        FileState.missing =
      .ok (.redirect "add_course"
             [("Error: Course name and instructor are required.", "error")],
           FileState.missing) :=
  ⟨rfl, rfl⟩

/-- C1 (amended): the strict variants (`app.py`, `app_jaeger.py`,
`jaeger_trail.py`) validate that name, instructor, semester and code are
all non-empty and on failure flash exactly the missing field names; the
lenient variants (`app2.py`, `app3.py`) validate only name and instructor,
on failure flash a fixed sentence, and otherwise save the course even when
code or semester is empty or absent. -/
theorem c1_validation_by_variant :
    (∀ form fs, validForm form = false →
        add_course form fs =
          .ok (.redirect "add_course"
                 [(reqFieldsMsg (formMissing form), "error")], fs)) ∧
    (∀ form fs,
        (isMissing (formGet form "name") || isMissing (formGet form "instructor")) = true →
        add_course_lenient form fs =
          .ok (.redirect "add_course"
                 [("Error: Course name and instructor are required.", "error")], fs)) ∧
    (∀ form xs,
        (isMissing (formGet form "name") || isMissing (formGet form "instructor")) = false →
        add_course_lenient form (.holds (.arr xs)) =
          .ok (.redirect "course_catalog"
                 [(successMsg (formGet form "name"), "success")],
               .holds (.arr (xs ++ [courseJson form])))) := by
  refine ⟨add_course_invalid, ?_, ?_⟩
  · intro form fs h
    unfold add_course_lenient
    simp [h]
  · intro form xs h
    unfold add_course_lenient
    rw [save_courses_arr (courseJson form) (.holds (.arr xs)) xs rfl]
    simp [h]

/-- Witness for `c1_validation_by_variant` at concrete inputs. -/
theorem c1_validation_by_variant_witness :
    add_course [("name", "Algorithms")] FileState.missing =
      .ok (.redirect "add_course"
             [(reqFieldsMsg (formMissing [("name", "Algorithms")]), "error")],
           FileState.missing) ∧
    add_course_lenient [("code", "CS301")] FileState.missing =
      .ok (.redirect "add_course"
             [("Error: Course name and instructor are required.", "error")],
           FileState.missing) ∧
    add_course_lenient [("name", "Algorithms"), ("instructor", "Dr. A")]
        (.holds (.arr [])) =
      .ok (.redirect "course_catalog"
             [(successMsg (formGet [("name", "Algorithms"), ("instructor", "Dr. A")] "name"),
               "success")],
           .holds (.arr ([] ++ [courseJson [("name", "Algorithms"), ("instructor", "Dr. A")]]))) :=
  ⟨c1_validation_by_variant.1 [("name", "Algorithms")] FileState.missing rfl,
   c1_validation_by_variant.2.1 [("code", "CS301")] FileState.missing rfl,
   c1_validation_by_variant.2.2 [("name", "Algorithms"), ("instructor", "Dr. A")] [] rfl⟩

/-- C2: a strict submission with at least one required field empty or
absent is rejected with a flash naming exactly the missing fields and the
persisted state is returned unchanged — no write occurs. -/
theorem c2_invalid_no_mutation (form : List (String × String)) (fs : FileState)
    (h : isMissing (formGet form "name") = true ∨
         isMissing (formGet form "instructor") = true ∨
         isMissing (formGet form "semester") = true ∨
         isMissing (formGet form "code") = true) :
    add_course form fs =
      .ok (.redirect "add_course"
             [(reqFieldsMsg (formMissing form), "error")], fs) := by
  apply add_course_invalid
  have hne : formMissing form ≠ [] := by
    intro hnil
    rw [formMissing, missing_fields_nil_iff] at hnil
    rcases h with h | h | h | h <;> simp [h] at hnil
  simpa [validForm, List.isEmpty_iff] using hne

/-- Witness for `c2_invalid_no_mutation`: instructor submitted empty. -/
theorem c2_invalid_no_mutation_witness :
    add_course [("name", "Algorithms"), ("instructor", ""), ("semester", "Fall"),
                ("code", "CS301")] FileState.missing =
      .ok (.redirect "add_course"
             [("Error: The following fields are required: Instructor.", "error")],
           FileState.missing) :=
  c2_invalid_no_mutation
    [("name", "Algorithms"), ("instructor", ""), ("semester", "Fall"), ("code", "CS301")]
    FileState.missing (Or.inr (Or.inl rfl))

/-- C3: on a stored collection whose records all carry a `'code'` key,
the detail route returns the first record (in stored order) whose code
equals the input and signals not-found (flash + redirect) when none
matches; with duplicate codes the earlier record wins, as `List.find?`
scans left to right. -/
theorem c3_get_first_match (code : String) (xs : List Json)
    (h : ∀ c ∈ xs, hasCodeKey c = true) :
    course_details code (.holds (.arr xs)) =
      match xs.find? (matchesCode code) with
      | some c => .ok (.render "course_details.html" c, .holds (.arr xs))
      | none => .ok (.redirect "course_catalog" [(noCourseMsg code, "error")],
                     .holds (.arr xs)) :=
  course_details_wf code xs h

/-- Witness for `c3_get_first_match`: two stored courses share code
`CS301`; the earlier one is rendered. -/
theorem c3_get_first_match_witness :
    course_details "CS301"
        (.holds (.arr [Json.obj [("code", .str "CS301"), ("name", .str "First")],
                       Json.obj [("code", .str "CS301"), ("name", .str "Second")]])) =
      .ok (.render "course_details.html"
             (Json.obj [("code", .str "CS301"), ("name", .str "First")]),
           .holds (.arr [Json.obj [("code", .str "CS301"), ("name", .str "First")],
                         Json.obj [("code", .str "CS301"), ("name", .str "Second")]])) :=
  c3_get_first_match "CS301"
    [Json.obj [("code", .str "CS301"), ("name", .str "First")],
     Json.obj [("code", .str "CS301"), ("name", .str "Second")]]
    (by intro c hc; simp only [List.mem_cons, List.not_mem_nil, or_false] at hc
        rcases hc with h | h <;> subst h <;> rfl)

/-- C6: starting from an empty store, any finite sequence of valid strict
submissions leaves the catalog route rendering exactly the submitted
courses, in call order. -/
theorem c6_list_in_call_order (forms : List (List (String × String)))
    (h : ∀ f ∈ forms, validForm f = true) :
    ∃ fs2, runAdds forms FileState.missing = .ok fs2 ∧
      course_catalog fs2 =
        .ok (.render "course_catalog.html" (.arr (forms.map courseJson)), fs2) := by
  cases forms with
  | nil => exact ⟨FileState.missing, rfl, rfl⟩
  | cons f rest =>
    refine ⟨.holds (.arr (List.map courseJson (f :: rest))), ?_, rfl⟩
    unfold runAdds
    rw [add_course_valid f FileState.missing [] (h f (List.mem_cons_self f rest)) rfl]
    show runAdds rest (FileState.holds (Json.arr ([] ++ [courseJson f]))) =
      Except.ok (FileState.holds (Json.arr (List.map courseJson (f :: rest))))
    rw [runAdds_arr rest ([] ++ [courseJson f]) fun g hg => h g (List.mem_cons_of_mem f hg)]
    simp

/-- Witness for `c6_list_in_call_order`: two concrete submissions. -/
theorem c6_list_in_call_order_witness :
    ∃ fs2,
      runAdds [[("name", "Algorithms"), ("instructor", "Dr. A"),
                ("semester", "Fall"), ("code", "CS301")],
               [("name", "Databases"), ("instructor", "Dr. B"),
                ("semester", "Spring"), ("code", "CS302")]]
          FileState.missing = .ok fs2 ∧
      course_catalog fs2 =
        .ok (.render "course_catalog.html"
               (.arr ([[("name", "Algorithms"), ("instructor", "Dr. A"),
                        ("semester", "Fall"), ("code", "CS301")],
                       [("name", "Databases"), ("instructor", "Dr. B"),
                        ("semester", "Spring"), ("code", "CS302")]].map courseJson)),
             fs2) :=
  c6_list_in_call_order
    [[("name", "Algorithms"), ("instructor", "Dr. A"),
      ("semester", "Fall"), ("code", "CS301")],
     [("name", "Databases"), ("instructor", "Dr. B"),
      ("semester", "Spring"), ("code", "CS302")]]
    (by decide)

/-- C7: whenever `save_courses` succeeds, reloading the store yields a
JSON array whose last element is exactly the appended course dict. -/
theorem c7_roundtrip_last (d : Json) (fs fs2 : FileState)
    (h : save_courses d fs = .ok fs2) :
    ∃ ys, load_courses fs2 = .ok (.arr ys) ∧ ys.getLast? = some d := by
  unfold save_courses at h
  split at h
  · exact Except.noConfusion h
  · rename_i courses heq
    injection h with h2
    exact ⟨courses ++ [d], by rw [← h2]; rfl, List.getLast?_concat courses⟩
  · exact Except.noConfusion h

/-- Witness for `c7_roundtrip_last` at a concrete store and course. -/
theorem c7_roundtrip_last_witness :
    ∃ ys, load_courses (FileState.holds (.arr [Json.str "old", Json.str "new"])) =
            .ok (.arr ys) ∧
          ys.getLast? = some (Json.str "new") :=
  c7_roundtrip_last (Json.str "new") (.holds (.arr [Json.str "old"]))
    (.holds (.arr [Json.str "old", Json.str "new"])) rfl

/-- A valid strict submission over a state whose save fails propagates the
storage exception unchanged. -/
theorem add_course_save_err (form : List (String × String)) (fs : FileState)
    (e : PyError) (hv : validForm form = true)
    (hs : save_courses (courseJson form) fs = .error e) :
    add_course form fs = .error e := by
  unfold add_course
  simp only [validForm] at hv
  rw [hs]
  simp [hv]

/-- C8: no route updates or deletes an existing course.  The landing,
catalog and detail routes return the file state they were given, and a
strict add that returns at all either leaves the state untouched
(validation failure) or extends the stored array by exactly one new record
at the end, keeping every earlier record in place. -/
theorem c8_no_update_or_delete :
    (∀ fs r, index fs = .ok r → r.2 = fs) ∧
    (∀ fs r, course_catalog fs = .ok r → r.2 = fs) ∧
    (∀ code fs r, course_details code fs = .ok r → r.2 = fs) ∧
    (∀ form fs r, add_course form fs = .ok r →
        r.2 = fs ∨
        ∃ xs, load_courses fs = .ok (.arr xs) ∧
              r.2 = .holds (.arr (xs ++ [courseJson form]))) := by
  refine ⟨?_, ?_, ?_, ?_⟩
  · intro fs r h
    injection h with h2
    rw [← h2]
  · intro fs r h
    unfold course_catalog at h
    split at h
    · exact Except.noConfusion h
    · injection h with h2; rw [← h2]
  · intro code fs r h
    unfold course_details at h
    split at h
    · exact Except.noConfusion h
    · split at h
      · exact Except.noConfusion h
      · split at h
        · exact Except.noConfusion h
        · split at h
          · split at h
            · injection h with h2; rw [← h2]
            · injection h with h2; rw [← h2]
          · injection h with h2; rw [← h2]
  · intro form fs r h
    cases hv : validForm form with
    | false =>
      rw [add_course_invalid form fs hv] at h
      injection h with h2
      exact Or.inl (by rw [← h2])
    | true =>
      cases fs with
      | missing =>
        rw [add_course_valid form FileState.missing [] hv rfl] at h
        injection h with h2
        exact Or.inr ⟨[], rfl, by rw [← h2]⟩
      | corrupt =>
        rw [add_course_save_err form FileState.corrupt PyError.jsonDecodeError hv rfl] at h
        exact Except.noConfusion h
      | holds j =>
        cases j with
        | arr xs =>
          rw [add_course_valid form (.holds (.arr xs)) xs hv rfl] at h
          injection h with h2
          exact Or.inr ⟨xs, rfl, by rw [← h2]⟩
        | null =>
          rw [add_course_save_err form (FileState.holds Json.null)
                PyError.attributeError hv rfl] at h
          exact Except.noConfusion h
        | str s =>
          rw [add_course_save_err form (FileState.holds (Json.str s))
                PyError.attributeError hv rfl] at h
          exact Except.noConfusion h
        | obj kvs =>
          rw [add_course_save_err form (FileState.holds (Json.obj kvs))
                PyError.attributeError hv rfl] at h
          exact Except.noConfusion h

/-- Witness for `c8_no_update_or_delete`: a concrete successful add over
the empty store extends it by one record. -/
theorem c8_no_update_or_delete_witness :
    (RouteResult.redirect "course_catalog" [(successMsg (some "Algorithms"), "success")],
     FileState.holds (Json.arr [courseJson
       [("name", "Algorithms"), ("instructor", "Dr. A"),
        ("semester", "Fall"), ("code", "CS301")]])).2 = FileState.missing ∨
    ∃ xs, load_courses FileState.missing = .ok (.arr xs) ∧
      (RouteResult.redirect "course_catalog" [(successMsg (some "Algorithms"), "success")],
       FileState.holds (Json.arr [courseJson
         [("name", "Algorithms"), ("instructor", "Dr. A"),
          ("semester", "Fall"), ("code", "CS301")]])).2 =
        .holds (.arr (xs ++ [courseJson
          [("name", "Algorithms"), ("instructor", "Dr. A"),
           ("semester", "Fall"), ("code", "CS301")]])) :=
  c8_no_update_or_delete.2.2.2
    [("name", "Algorithms"), ("instructor", "Dr. A"),
     ("semester", "Fall"), ("code", "CS301")]
    FileState.missing _ rfl

/-- C10: the detail route has no schema check.  A stored element on which
`course['code']` raises — a dict without the key, or a non-dict — makes
the route propagate that exception instead of signalling not-found; and
when every element does carry a `'code'` key the route always returns
normally. -/
theorem c10_schema_dependence :
    (∀ code j e xs, getItem j "code" = .error e →
        course_details code (.holds (.arr (j :: xs))) = .error e) ∧
    (∀ code xs, (∀ c ∈ xs, hasCodeKey c = true) →
        ∃ r, course_details code (.holds (.arr xs)) = .ok r) := by
  constructor
  · intro code j e xs h
    have hf : findCourse code (j :: xs) = .error e := by
      unfold findCourse; rw [h]
    unfold course_details
    simp only [load_courses, pyIter]
    simp [hf]
  · intro code xs h
    rcases hf : xs.find? (matchesCode code) with _ | c
    · exact ⟨_, by rw [course_details_wf code xs h, hf]⟩
    · exact ⟨_, by rw [course_details_wf code xs h, hf]⟩

/-- Witness for `c10_schema_dependence`: a stored record lacking `'code'`
raises `KeyError`; the empty well-formed store returns normally. -/
theorem c10_schema_dependence_witness :
    course_details "CS301" (.holds (.arr [Json.obj [("name", .str "Algo")]])) =
      .error (.keyError "code") ∧
    ∃ r, course_details "CS999" (.holds (.arr ([] : List Json))) = .ok r :=
  ⟨c10_schema_dependence.1 "CS301" (Json.obj [("name", .str "Algo")])
     (.keyError "code") [] rfl,
   c10_schema_dependence.2 "CS999" []
     (by intro c hc; exact absurd hc (List.not_mem_nil c))⟩

end CourseApp
